import Mathlib

/-!
Verification of the SoarZip browse-state subsystem.

The TypeScript sources are shallowly embedded: JS strings are modelled through
their character lists (`String.data`), JS `Set` objects by `Finset String`,
the mutable module state of each source module by an explicit state structure,
and every `await`-ed backend call by an explicit `Except`-valued outcome
argument.  Each definition mirrors one function of the sources:

* `NavigationHistory`    — src/services/navigationService.ts (class NavigationHistory)
* `normalizeFolderPath`  — src/services/navigationService.ts
* `filterFilesByFolder`, `getFileStats` — src/services/fileService.ts
* `ExplorerState` and its handlers — the file-explorer UI module
  (updateFileList / handleFileListClick / handleFileListDblClick /
  handleFileListContextMenu / setLoading)
* `AppState` and its handlers — appState.ts plus the navigation-button setup
  module, the toolbar module (handleDelete) and the archive service
  (loadArchive).
-/

namespace SoarZip

/-! ### JavaScript string primitives

JS strings are sequences of code units; all paths in play are plain text, so a
string is modelled by its list of characters.  Each helper mirrors one JS
string method used by the sources. -/

/-- JS `s.includes(c)` for a single character. -/
def jsContains (s : String) (c : Char) : Bool := s.data.contains c

/-- JS `s.startsWith(p)`. -/
def jsStartsWith (s p : String) : Bool := p.data.isPrefixOf s.data

/-- JS `s.endsWith(p)`. -/
def jsEndsWith (s p : String) : Bool := p.data.isSuffixOf s.data

/-- JS `s.substring(n)` (drop the first `n` code units). -/
def jsDrop (s : String) (n : Nat) : String := ⟨s.data.drop n⟩

/-- JS `s.substring(0, n)`. -/
def jsTake (s : String) (n : Nat) : String := ⟨s.data.take n⟩

/-- JS `s.slice(0, -1)` (drop the last code unit). -/
def jsDropLast (s : String) : String := ⟨s.data.dropLast⟩

/-- JS `s.length`. -/
def jsLength (s : String) : Nat := s.data.length

/-- JS `array.slice(0, e)` for an integer end index `e`: a negative end
counts from the end of the array, and the result is clamped to the array. -/
def jsSlice (l : List String) (e : Int) : List String :=
  if 0 ≤ e then l.take e.toNat else l.take (l.length - (-e).toNat)

/-- JS `array[i]` for an integer index: `undefined` (here `none`) outside
the array bounds. -/
def jsIndex (l : List String) (i : Int) : Option String :=
  if 0 ≤ i then l[i.toNat]? else none

/-! ### NavigationHistory (src/services/navigationService.ts)

The class holds `private history: string[] = []` and
`private currentIndex: number = -1`. -/

/-- The state of the `NavigationHistory` class: the visited paths and the
current position (a JS number, `-1` before the first path is added). -/
@[ext]
structure NavigationHistory where
  history : List String
  currentIndex : Int
deriving Repr, DecidableEq

namespace NavigationHistory

/-- The freshly constructed singleton: `history = []`, `currentIndex = -1`. -/
def initial : NavigationHistory := ⟨[], -1⟩

/-- The second statement of `addPath`: only if
`history[currentIndex] !== path`, push `path` and set
`currentIndex = history.length - 1`. -/
def pushUnlessCurrent (s1 : NavigationHistory) (path : String) :
    NavigationHistory :=
  if jsIndex s1.history s1.currentIndex ≠ some path then
    { history := s1.history ++ [path],
      currentIndex := ((s1.history.length + 1 : Nat) : Int) - 1 }
  else s1

/-- `addPath(path)`: if not at the end of history, truncate the future
(`history = history.slice(0, currentIndex + 1)`); then push unless the path
equals the one under the cursor. -/
def addPath (s : NavigationHistory) (path : String) : NavigationHistory :=
  pushUnlessCurrent
    (if s.currentIndex < (s.history.length : Int) - 1 then
      { s with history := jsSlice s.history (s.currentIndex + 1) }
    else s) path

/-- `getPreviousPath()`: if `currentIndex > 0`, decrement it and return the
path now under the cursor; otherwise return `null` and leave the state. -/
def getPreviousPath (s : NavigationHistory) : Option String × NavigationHistory :=
  if 0 < s.currentIndex then
    (jsIndex s.history (s.currentIndex - 1), { s with currentIndex := s.currentIndex - 1 })
  else (none, s)

/-- `getNextPath()`: if `currentIndex < history.length - 1`, increment it and
return the path now under the cursor; otherwise return `null`. -/
def getNextPath (s : NavigationHistory) : Option String × NavigationHistory :=
  if s.currentIndex < (s.history.length : Int) - 1 then
    (jsIndex s.history (s.currentIndex + 1), { s with currentIndex := s.currentIndex + 1 })
  else (none, s)

/-- The state transformer of `getPreviousPath` (the returned value dropped). -/
def back (s : NavigationHistory) : NavigationHistory := (s.getPreviousPath).2

/-- The state transformer of `getNextPath` (the returned value dropped). -/
def forward (s : NavigationHistory) : NavigationHistory := (s.getNextPath).2

/-- `reset(initialPath = "")`: `history = [initialPath]`, `currentIndex = 0`. -/
def resetNav (initialPath : String := "") : NavigationHistory := ⟨[initialPath], 0⟩

/-- `canGoBack()`: `currentIndex > 0`. -/
def canGoBack (s : NavigationHistory) : Bool := 0 < s.currentIndex

/-- `canGoForward()`: `currentIndex < history.length - 1`. -/
def canGoForward (s : NavigationHistory) : Bool :=
  s.currentIndex < (s.history.length : Int) - 1

/-- `getCurrentPath()`: the path under the cursor, or `""` when the index is
out of range. -/
def getCurrentPath (s : NavigationHistory) : String :=
  (jsIndex s.history s.currentIndex).getD ""

/-- `back()` iterated. -/
def backN (s : NavigationHistory) : Nat → NavigationHistory
  | 0 => s
  | n + 1 => (s.back).backN n

/-- `forward()` iterated. -/
def forwardN (s : NavigationHistory) : Nat → NavigationHistory
  | 0 => s
  | n + 1 => (s.forward).forwardN n

/-- A sequence of `addPath` calls. -/
def visits (s : NavigationHistory) (ps : List String) : NavigationHistory :=
  ps.foldl addPath s

end NavigationHistory

/-- `getParentPath(currentPath)` from navigationService.ts: strip one
trailing slash, find the last remaining `/`; no slash means root (`""`), a
slash at position 0 gives `"/"`, otherwise everything up to the slash plus
`'/'`. -/
def getParentPath (currentPath : String) : String :=
  if currentPath = "" then ""
  else
    let normalizedPath := if jsEndsWith currentPath "/" then jsDropLast currentPath
      else currentPath
    match (normalizedPath.data.reverse.findIdx? (· == '/')) with
    | none => ""
    | some r =>
      let lastSlashIndex := normalizedPath.data.length - 1 - r
      if lastSlashIndex = 0 then "/"
      else jsTake normalizedPath lastSlashIndex ++ "/"

/-- `normalizeFolderPath(folderPath)` from navigationService.ts: empty input
gives `""`; otherwise remove every leading slash (`replace(/^\/+/, '')`) and
append a trailing slash to a non-empty result that lacks one. -/
def normalizeFolderPath (folderPath : String) : String :=
  if folderPath = "" then ""
  else
    let normalizedPath : String := ⟨folderPath.data.dropWhile (· == '/')⟩
    if normalizedPath ≠ "" && !jsEndsWith normalizedPath "/" then
      normalizedPath ++ "/"
    else normalizedPath

/-! ### File service (src/services/fileService.ts) -/

/-- The `FileItem` interface: full path in the archive, directory flag, size
in bytes, modification date and type label. -/
structure FileItem where
  name : String
  is_dir : Bool
  size : Nat
  modified_date : String
  type_name : String
deriving Repr, DecidableEq

/-- The normalisation `x.replace(/^\/\/|\/$/, '')` applied by
`filterFilesByFolder` to both the folder argument and each entry path. The
regex has no `g` flag, so only the first match is replaced: a leading
double slash if the string starts with `//`, otherwise a single trailing
slash if the string ends with `/`. -/
def stripPathEnds (s : String) : String :=
  if jsStartsWith s "//" then jsDrop s 2
  else if jsEndsWith s "/" then jsDropLast s
  else s

/-- The filter callback of `filterFilesByFolder`: the root keeps entries
whose normalised path has no `/`; a subdirectory keeps an entry when its
normalised path starts with `currentFolderNormalized + "/"` and the
remainder (`substring(currentFolderNormalized.length + 1)`) has no further
`/`. -/
def shouldInclude (currentFolderNormalized : String) (file : FileItem) : Bool :=
  let relativePath := stripPathEnds file.name
  if currentFolderNormalized = "" then
    !jsContains relativePath '/'
  else
    let startsWithCurrentFolder :=
      jsStartsWith relativePath (currentFolderNormalized ++ "/")
    let isDirectChild :=
      if startsWithCurrentFolder then
        let remainingPath :=
          jsDrop relativePath (jsLength currentFolderNormalized + 1)
        !jsContains remainingPath '/'
      else false
    startsWithCurrentFolder && isDirectChild

/-- `filterFilesByFolder(files, currentFolder)`: an empty list filters to
the empty list (the early return); otherwise keep the entries that are
direct children of the normalised folder. -/
def filterFilesByFolder (files : List FileItem) (currentFolder : String) :
    List FileItem :=
  if files.length = 0 then []
  else files.filter (shouldInclude (stripPathEnds currentFolder))

/-- JS `s.split('/').filter(Boolean)`: the non-empty `/`-separated segments
of a path. -/
def slashSegments (s : String) : List (List Char) :=
  (s.data.splitOn '/').filter (· ≠ [])

/-- `getFileStats(files, currentFolder)`: the `(count, totalSize)` of the
entries the status bar attributes to the folder.  Root keeps entries with no
`/` or exactly one non-empty segment ending in `/`; a subfolder keeps entries
that start with the raw (un-normalised) `currentFolder` and either equal it
or have at most one non-empty segment after it. -/
def getFileStats (files : List FileItem) (currentFolder : String) : Nat × Nat :=
  let currentFiles := files.filter fun file =>
    if currentFolder = "" then
      !jsContains file.name '/' ||
        ((slashSegments file.name).length = 1 && jsEndsWith file.name "/")
    else
      jsStartsWith file.name currentFolder &&
        (file.name = currentFolder ||
          (slashSegments (jsDrop file.name (jsLength currentFolder))).length ≤ 1)
  (currentFiles.length, currentFiles.foldl (fun sum file => sum + file.size) 0)

/-! ### File-explorer UI state (the file-explorer module)

Module-level mutable state: `isLoading`, `selectedFiles : Set<string>`
(modelled by its membership set, a `Finset String`), `lastClickedIndex` and
`currentRenderedFiles`.  DOM rendering, context-menu markup and the callback
references carry no selection state and are not modelled. -/

/-- The mutable state of the file-explorer module. -/
structure ExplorerState where
  isLoading : Bool
  selectedFiles : Finset String
  lastClickedIndex : Int
  currentRenderedFiles : List FileItem
deriving DecidableEq

namespace ExplorerState

/-- The module state at load time. -/
def initial : ExplorerState := ⟨false, ∅, -1, []⟩

/-- The names added by the shift-click loop
`for (i = start; i <= stop; i++) selectedFiles.add(currentRenderedFiles[i].name)`.
Indices beyond the rendered list (unreachable: both loop ends come from
in-bounds clicks) contribute nothing. -/
def rangeNames (r : List FileItem) (start stop : Nat) : Finset String :=
  ((List.range' start (stop + 1 - start)).filterMap
    fun i => (r.get? i).map FileItem.name).toFinset

/-- `updateFileList(files, ...)`: cache the rendered list, clear the
selection, reset the anchor.  (The DOM re-rendering that follows has no
effect on this state.) -/
def updateFileList (s : ExplorerState) (files : List FileItem) : ExplorerState :=
  { s with currentRenderedFiles := files, selectedFiles := ∅,
           lastClickedIndex := -1 }

/-- The selection logic of `handleFileListClick` for a click landing on the
file item of index `index` (its `data-filename` is the name of
`currentRenderedFiles[index]`; clicks with missing data attributes or a stale
index are the `none` branch and do nothing), with the ctrl/meta and shift
modifier flags. -/
def handleFileListClick (s : ExplorerState) (index : Nat) (ctrl shift : Bool) :
    ExplorerState :=
  if s.isLoading then s
  else
    match s.currentRenderedFiles.get? index with
    | none => s
    | some file =>
      if shift = true ∧ s.lastClickedIndex ≠ -1 then
        let start := min s.lastClickedIndex.toNat index
        let stop := max s.lastClickedIndex.toNat index
        let base := if ctrl then s.selectedFiles else ∅
        { s with selectedFiles := base ∪ rangeNames s.currentRenderedFiles start stop }
      else if ctrl then
        { s with
          selectedFiles :=
            if file.name ∈ s.selectedFiles then s.selectedFiles.erase file.name
            else insert file.name s.selectedFiles,
          lastClickedIndex := (index : Int) }
      else
        { s with selectedFiles := {file.name}, lastClickedIndex := (index : Int) }

/-- The branch of `handleFileListClick` for a click on empty space: clear the
selection and reset the anchor. -/
def handleEmptyClick (s : ExplorerState) : ExplorerState :=
  if s.isLoading then s
  else { s with selectedFiles := ∅, lastClickedIndex := -1 }

/-- The selection effect of `handleFileListDblClick` on a file item: clear
the selection and the anchor before navigating or previewing. -/
def handleFileListDblClick (s : ExplorerState) (index : Nat) : ExplorerState :=
  if s.isLoading then s
  else
    match s.currentRenderedFiles.get? index with
    | none => s
    | some _ => { s with selectedFiles := ∅, lastClickedIndex := -1 }

/-- The selection effect of `handleFileListContextMenu`: if the right-clicked
item is not in the selection, select it exclusively. -/
def handleFileListContextMenu (s : ExplorerState) (index : Nat) : ExplorerState :=
  if s.isLoading then s
  else
    match s.currentRenderedFiles.get? index with
    | none => s
    | some file =>
      if file.name ∈ s.selectedFiles then s
      else { s with selectedFiles := {file.name} }

/-- `setLoading(loading)`. -/
def setLoading (s : ExplorerState) (loading : Bool) : ExplorerState :=
  { s with isLoading := loading }

end ExplorerState

/-- Every interaction that can reach the file-explorer module state. -/
inductive ExplorerEvent where
  | update (files : List FileItem)
  | click (index : Nat) (ctrl shift : Bool)
  | emptyClick
  | dblclick (index : Nat)
  | contextmenu (index : Nat)
  | load (loading : Bool)
deriving Repr

/-- Dispatch one interaction to its handler. -/
def ExplorerState.step (s : ExplorerState) : ExplorerEvent → ExplorerState
  | .update files => s.updateFileList files
  | .click index ctrl shift => s.handleFileListClick index ctrl shift
  | .emptyClick => s.handleEmptyClick
  | .dblclick index => s.handleFileListDblClick index
  | .contextmenu index => s.handleFileListContextMenu index
  | .load loading => s.setLoading loading

/-- A run of the explorer module from load time. -/
def ExplorerState.run (events : List ExplorerEvent) : ExplorerState :=
  events.foldl ExplorerState.step ExplorerState.initial

/-- The §3 invariant: every selected path names an entry of the last
rendered list. -/
def selectionValid (s : ExplorerState) : Prop :=
  s.selectedFiles ⊆ (s.currentRenderedFiles.map FileItem.name).toFinset

/-! ### Application state and controller handlers

`appState.ts` holds `currentArchivePath`, `currentFiles` and `isLoading`;
the navigation-history singleton lives in navigationService.ts.  The click
handlers of the navigation-button setup module, the `navigateToFolder` and
refresh logic of the UI manager, `loadArchive` of the archive service and
`handleDelete` of the toolbar module act on this combined state.  Each
`await`-ed backend call is modelled by an explicit `Except`-valued outcome
argument; DOM updates and notifications have no state effect here. -/

/-- The combined application state the controller handlers mutate. -/
structure AppState where
  nav : NavigationHistory
  currentArchivePath : String
  currentFiles : List FileItem
  isLoading : Bool
deriving Repr, DecidableEq

namespace AppState

/-- `navigateToFolder(folderPath)` (UI manager): rejected while loading;
otherwise `addPath(normalizeFolderPath(folderPath))` followed by a UI
refresh. -/
def navigateToFolder (s : AppState) (folderPath : String) : AppState :=
  if s.isLoading then s
  else { s with nav := s.nav.addPath (normalizeFolderPath folderPath) }

/-- The Back button handler: `if (isLoading() || !canGoBack()) return;`
then `getPreviousPath()` (which moves the cursor) and a UI refresh. -/
def backClick (s : AppState) : AppState :=
  if s.isLoading || !s.nav.canGoBack then s
  else { s with nav := s.nav.back }

/-- The Forward button handler, symmetric to `backClick`. -/
def forwardClick (s : AppState) : AppState :=
  if s.isLoading || !s.nav.canGoForward then s
  else { s with nav := s.nav.forward }

/-- The Up button handler: rejected while loading; if the current path is
non-empty, navigate to its parent. -/
def upClick (s : AppState) : AppState :=
  if s.isLoading then s
  else if s.nav.getCurrentPath ≠ "" then
    s.navigateToFolder (getParentPath s.nav.getCurrentPath)
  else s

/-- The double-click handler's navigation effect: rejected while loading;
double-clicking a directory row navigates into it, a file row only shows a
notice. -/
def dblClickNavigate (s : AppState) (file : FileItem) : AppState :=
  if s.isLoading then s
  else if file.is_dir then s.navigateToFolder file.name
  else s

/-- The synchronous prefix of the Refresh button handler: rejected while
loading or with no archive open; otherwise `updateLoadingStatus(true)`. -/
def refreshStart (s : AppState) : AppState :=
  if s.isLoading || s.currentArchivePath = "" then s
  else { s with isLoading := true }

/-- The continuation of the Refresh handler once `open_archive` settles:
on success install the new list; on failure only show the error; either way
the `finally` clause runs `updateLoadingStatus(false)`. -/
def refreshFinish (s : AppState) (result : Except String (List FileItem)) :
    AppState :=
  match result with
  | .ok files => { s with currentFiles := files, isLoading := false }
  | .error _ => { s with isLoading := false }

/-- The synchronous prefix of `loadArchive`: `setIsLoading(true)` before the
`await invokeOpenArchive(archivePath)`. -/
def loadArchiveStart (s : AppState) : AppState :=
  { s with isLoading := true }

/-- The continuation of `loadArchive` once `open_archive` settles: on success
install the path and files and `navigationHistory.reset("")`; on failure
`resetAppState()` (path and files cleared, the navigation history is not
touched) and show the home page; either way the `finally` clause runs
`setIsLoading(false)`. -/
def loadArchiveFinish (s : AppState) (archivePath : String)
    (result : Except String (List FileItem)) : AppState :=
  match result with
  | .ok files =>
    { nav := NavigationHistory.resetNav "", currentArchivePath := archivePath,
      currentFiles := files, isLoading := false }
  | .error _ =>
    { nav := s.nav, currentArchivePath := "", currentFiles := [],
      isLoading := false }

/-- `handleDelete` of the toolbar module, with the confirm-dialog answer and
the backend outcome explicit.  The handler never consults the loading flag:
with a non-empty selection it shows the confirm dialog, and on confirmation
sets the flag, deletes, re-opens the archive, installs the returned list
(on failure only shows the error) and finally clears the flag. -/
def handleDelete (s : AppState) (selected : List String) (confirmed : Bool)
    (result : Except String (List FileItem)) : AppState :=
  if selected.isEmpty then s
  else if confirmed then
    match result with
    | .ok files => { s with currentFiles := files, isLoading := false }
    | .error _ => { s with isLoading := false }
  else s

/-- `handlePaste` of the toolbar module, clipboard contents and backend
outcome explicit.  Like `handleDelete` it never consults the loading flag
before dispatching. -/
def handlePaste (s : AppState) (clipboardFiles : List String)
    (result : Except String (List FileItem)) : AppState :=
  if clipboardFiles.isEmpty then s
  else
    match result with
    | .ok files => { s with currentFiles := files, isLoading := false }
    | .error _ => { s with isLoading := false }

end AppState

/-! ### Specification-side and claim-side formulations of the path filter -/

/-- The direct-child relation in the words of the specification, with the
normalisation amended to the one the code performs: after normalising both
the folder and the entry path (leading double slash or single trailing slash
removed, first match only), a root child has no separator, and a non-root
child is the prefix, a slash, and a separator-free remainder. -/
def specIsDirectChild (folder : String) (e : FileItem) : Prop :=
  let pre := stripPathEnds folder
  let p := stripPathEnds e.name
  if pre = "" then ¬ p.data.contains '/'
  else ∃ rest : List Char, p.data = pre.data ++ '/' :: rest ∧ ¬ rest.contains '/'

/-- The folder normalisation exactly as claim C4 words it: strip one leading
slash and one trailing slash. -/
def claimPrefix (folder : String) : String :=
  let noLead := if jsStartsWith folder "/" then jsDrop folder 1 else folder
  if jsEndsWith noLead "/" then jsDropLast noLead else noLead

/-- The children function exactly as claim C4 words it (for refutation):
the claimed prefix is compared against the raw entry paths. -/
def claimedChildren (files : List FileItem) (folder : String) : List FileItem :=
  let pre := claimPrefix folder
  files.filter fun e =>
    if pre = "" then !jsContains e.name '/'
    else jsStartsWith e.name (pre ++ "/") &&
      !jsContains (jsDrop e.name (jsLength pre + 1)) '/'

/-- The three-entry list of the §8 example: a root file, a file inside
`dir`, and a file nested two levels deep. -/
def exampleEntries : List FileItem :=
  [⟨"a.txt", false, 0, "", ""⟩, ⟨"dir/b.txt", false, 0, "", ""⟩,
   ⟨"dir/sub/c.txt", false, 0, "", ""⟩]

/-- The same example with an explicit directory-marker entry for `dir`. -/
def markerEntries : List FileItem :=
  [⟨"dir/", true, 0, "", ""⟩, ⟨"dir/b.txt", false, 0, "", ""⟩]

/-! ### Lemmas about NavigationHistory -/

namespace NavigationHistory

/-- When the path differs from the entry under the cursor it is pushed and
the cursor moves to the new end. -/
theorem pushUnlessCurrent_of_ne (s1 : NavigationHistory) (path : String)
    (hg : jsIndex s1.history s1.currentIndex ≠ some path) :
    s1.pushUnlessCurrent path =
      ⟨s1.history ++ [path], (s1.history.length : Int)⟩ := by
  unfold pushUnlessCurrent
  rw [if_pos hg]
  ext <;> simp

/-- When the path equals the entry under the cursor nothing is pushed. -/
theorem pushUnlessCurrent_of_eq (s1 : NavigationHistory) (path : String)
    (hg : jsIndex s1.history s1.currentIndex = some path) :
    s1.pushUnlessCurrent path = s1 := by
  unfold pushUnlessCurrent
  simp [hg]

/-- For a non-negative cursor, `addPath` is truncate-then-conditionally-append. -/
theorem addPath_eq_of_nonneg (s : NavigationHistory) (path : String)
    (h : 0 ≤ s.currentIndex) :
    s.addPath path =
      (let kept := s.history.take (s.currentIndex.toNat + 1)
       if s.history[s.currentIndex.toNat]? = some path then
         ⟨kept, s.currentIndex⟩
       else ⟨kept ++ [path], (kept.length : Int)⟩) := by
  obtain ⟨l, c⟩ := s
  simp only at h ⊢
  have htn : (c + 1).toNat = c.toNat + 1 := by omega
  have h1 : (⟨l, c⟩ : NavigationHistory).addPath path =
      (⟨l.take (c.toNat + 1), c⟩ : NavigationHistory).pushUnlessCurrent path := by
    unfold addPath
    by_cases htr : c < (l.length : Int) - 1
    · rw [if_pos htr]
      have : jsSlice l (c + 1) = l.take (c.toNat + 1) := by
        simp only [jsSlice, if_pos (show (0:Int) ≤ c + 1 by omega), htn]
      rw [this]
    · rw [if_neg htr]
      have : l.take (c.toNat + 1) = l := List.take_of_length_le (by omega)
      rw [this]
  rw [h1]
  have hidx : jsIndex (l.take (c.toNat + 1)) c = l[c.toNat]? := by
    simp only [jsIndex, if_pos h]
    exact List.getElem?_take_of_lt (by omega)
  by_cases hg : l[c.toNat]? = some path
  · rw [pushUnlessCurrent_of_eq _ _ (by simpa [hidx] using hg)]
    simp [hg]
  · rw [pushUnlessCurrent_of_ne _ _ (by simpa [hidx] using hg)]
    simp [hg]

/-- After any `addPath` the cursor sits on the last entry of a non-empty
history. -/
theorem addPath_atEnd (s : NavigationHistory) (path : String) :
    (s.addPath path).currentIndex = ((s.addPath path).history.length : Int) - 1 ∧
      (s.addPath path).history ≠ [] := by
  by_cases h : 0 ≤ s.currentIndex
  · rw [addPath_eq_of_nonneg s path h]
    by_cases hg : s.history[s.currentIndex.toNat]? = some path
    · have hlt : s.currentIndex.toNat < s.history.length := by
        obtain ⟨h1, -⟩ := List.getElem?_eq_some.mp hg
        exact h1
      simp [hg, List.length_take]
      exact ⟨by omega, List.ne_nil_of_length_pos (by omega)⟩
    · simp [hg, List.length_take]
  · -- negative cursor: the guard `history[currentIndex] !== path` always
    -- holds (`undefined`), so the path is appended
    have hnone : ∀ l : List String, jsIndex l s.currentIndex = none := by
      intro l; simp only [jsIndex]; rw [if_neg (by omega)]
    have h1 : s.addPath path =
        pushUnlessCurrent
          (if s.currentIndex < (s.history.length : Int) - 1 then
            { s with history := jsSlice s.history (s.currentIndex + 1) }
          else s) path := rfl
    rw [h1]
    set s1 := if s.currentIndex < (s.history.length : Int) - 1 then
        { s with history := jsSlice s.history (s.currentIndex + 1) }
      else s with hs1
    have hs1c : s1.currentIndex = s.currentIndex := by
      rw [hs1]; split <;> rfl
    rw [pushUnlessCurrent_of_ne s1 path (by rw [hs1c, hnone]; simp)]
    constructor
    · simp
    · simp

/-- `addPath` always leaves the added path under the cursor. -/
theorem getCurrentPath_addPath (s : NavigationHistory) (path : String) :
    (s.addPath path).getCurrentPath = path := by
  have h1 : s.addPath path =
      pushUnlessCurrent
        (if s.currentIndex < (s.history.length : Int) - 1 then
          { s with history := jsSlice s.history (s.currentIndex + 1) }
        else s) path := rfl
  rw [h1]
  set s1 := if s.currentIndex < (s.history.length : Int) - 1 then
      { s with history := jsSlice s.history (s.currentIndex + 1) }
    else s with hs1
  by_cases hg : jsIndex s1.history s1.currentIndex = some path
  · rw [pushUnlessCurrent_of_eq s1 path hg]
    simp [getCurrentPath, hg]
  · rw [pushUnlessCurrent_of_ne s1 path hg]
    simp only [getCurrentPath, jsIndex]
    rw [if_pos (by omega : (0:Int) ≤ (s1.history.length : Int))]
    simp [List.getElem?_concat_length]

/-- `back` never mutates the entry list. -/
theorem back_history (s : NavigationHistory) : (s.back).history = s.history := by
  unfold back getPreviousPath
  split <;> rfl

/-- `forward` never mutates the entry list. -/
theorem forward_history (s : NavigationHistory) :
    (s.forward).history = s.history := by
  unfold forward getNextPath
  split <;> rfl

/-- Iterated `back`: the entry list is untouched and the cursor is clamped
at 0. -/
theorem backN_spec (s : NavigationHistory) (k : Nat)
    (h : 0 ≤ s.currentIndex) :
    (s.backN k).history = s.history ∧
      (s.backN k).currentIndex = max (s.currentIndex - k) 0 := by
  induction k generalizing s with
  | zero => simp [backN]; omega
  | succ n ih =>
    have hb : 0 ≤ (s.back).currentIndex := by
      unfold back getPreviousPath; split <;> simp <;> omega
    obtain ⟨ih1, ih2⟩ := ih s.back hb
    refine ⟨by rw [backN, ih1, back_history], ?_⟩
    rw [backN, ih2]
    unfold back getPreviousPath
    split <;> simp <;> omega

/-- Iterated `forward`: the entry list is untouched and the cursor is
clamped at the last entry. -/
theorem forwardN_spec (s : NavigationHistory) (k : Nat)
    (h : s.currentIndex ≤ (s.history.length : Int) - 1) :
    (s.forwardN k).history = s.history ∧
      (s.forwardN k).currentIndex =
        min (s.currentIndex + k) ((s.history.length : Int) - 1) := by
  induction k generalizing s with
  | zero => simp [forwardN]; omega
  | succ n ih =>
    have hf : (s.forward).currentIndex ≤ ((s.forward).history.length : Int) - 1 := by
      rw [forward_history]
      unfold forward getNextPath; split <;> simp <;> omega
    obtain ⟨ih1, ih2⟩ := ih s.forward hf
    refine ⟨by rw [forwardN, ih1, forward_history], ?_⟩
    rw [forwardN, ih2, forward_history]
    unfold forward getNextPath
    split <;> simp <;> omega

/-- From the end of the history, `back` taken `k` times followed by
`forward` taken `k` times restores the state exactly, for every `k`. -/
theorem back_forward_roundtrip (s : NavigationHistory) (k : Nat)
    (h1 : s.currentIndex = (s.history.length : Int) - 1)
    (h2 : s.history ≠ []) :
    (s.backN k).forwardN k = s := by
  have hpos : 0 < s.history.length := List.length_pos.mpr h2
  have hc : 0 ≤ s.currentIndex := by omega
  obtain ⟨bh, bi⟩ := backN_spec s k hc
  have h3 : (s.backN k).currentIndex ≤ ((s.backN k).history.length : Int) - 1 := by
    rw [bh, bi]; omega
  obtain ⟨fh, fi⟩ := forwardN_spec (s.backN k) k h3
  ext1
  · rw [fh, bh]
  · rw [fi, bi, bh]
    omega

/-- A `reset` state, and hence any state reached from it by `addPath`
calls, has its cursor on the last entry. -/
theorem visits_atEnd (s : NavigationHistory) (ps : List String)
    (h1 : s.currentIndex = (s.history.length : Int) - 1)
    (h2 : s.history ≠ []) :
    (s.visits ps).currentIndex = ((s.visits ps).history.length : Int) - 1 ∧
      (s.visits ps).history ≠ [] := by
  induction ps generalizing s with
  | nil => exact ⟨h1, h2⟩
  | cons p ps ih =>
    obtain ⟨g1, g2⟩ := addPath_atEnd s p
    exact ih (s.addPath p) g1 g2

/-- After a non-empty sequence of `addPath` calls the current path is the
last visited one. -/
theorem getCurrentPath_visits (s : NavigationHistory) (ps : List String)
    (h : ps ≠ []) :
    (s.visits ps).getCurrentPath = ps.getLast h := by
  induction ps using List.reverseRecOn with
  | nil => exact absurd rfl h
  | append_singleton qs q _ =>
    unfold visits
    rw [List.foldl_append]
    simp [List.getLast_append]
    exact getCurrentPath_addPath _ q

end NavigationHistory

/-! ### Claim C1 -/

/-- C1 fails as stated: in the reachable state with entries `[a, b, c]` and
cursor 1 (visit a, b, c, then back once), `visit("b")` — whose argument
equals `entries[cursor]` — is not a no-op: the truncation runs before the
duplicate check, so the forward entry `c` is still discarded. -/
theorem C1_counterexample :
    (((((NavigationHistory.resetNav "a").addPath "b").addPath "c").back).history
        = ["a", "b", "c"] ∧
      jsIndex ((((NavigationHistory.resetNav "a").addPath "b").addPath "c").back).history
        ((((NavigationHistory.resetNav "a").addPath "b").addPath "c").back).currentIndex
        = some "b") ∧
    ((((NavigationHistory.resetNav "a").addPath "b").addPath "c").back).addPath "b"
      ≠ (((NavigationHistory.resetNav "a").addPath "b").addPath "c").back := by
  decide

/-- C1 (amended): `visit(path)` always discards the entries after the cursor
first; on the kept prefix it appends `path` and moves the cursor to the new
end unless `path` equals the entry under the cursor, in which case the kept
prefix and the cursor stand.  It is a full no-op exactly when in addition the
cursor was already at the end; and the concrete scenario holds: from
`[a,b,c]` at cursor 2, `back()` then `visit(d)` yields `[a,b,d]` with cursor
2 and `canGoForward()` false. -/
theorem C1_visit_truncates_then_appends :
    (∀ (s : NavigationHistory) (path : String), 0 ≤ s.currentIndex →
      s.addPath path =
        (let kept := s.history.take (s.currentIndex.toNat + 1)
         if s.history[s.currentIndex.toNat]? = some path then
           ⟨kept, s.currentIndex⟩
         else ⟨kept ++ [path], (kept.length : Int)⟩)) ∧
    (∀ (s : NavigationHistory) (path : String),
      s.currentIndex = (s.history.length : Int) - 1 →
      jsIndex s.history s.currentIndex = some path →
      s.addPath path = s) ∧
    (((((NavigationHistory.resetNav "a").addPath "b").addPath "c").back).addPath "d"
        = ⟨["a", "b", "d"], 2⟩ ∧
      (((((NavigationHistory.resetNav "a").addPath "b").addPath "c").back).addPath "d").canGoForward
        = false) := by
  refine ⟨fun s path h => NavigationHistory.addPath_eq_of_nonneg s path h,
    fun s path h1 h2 => ?_, by decide⟩
  have h0 : 0 ≤ s.currentIndex := by
    by_contra hneg
    rw [jsIndex, if_neg (by omega)] at h2
    exact Option.noConfusion h2
  have hg : s.history[s.currentIndex.toNat]? = some path := by
    rw [jsIndex, if_pos h0] at h2
    exact h2
  rw [NavigationHistory.addPath_eq_of_nonneg s path h0]
  have hlt : s.currentIndex.toNat < s.history.length :=
    (List.getElem?_eq_some.mp hg).1
  have hkeep : s.history.take (s.currentIndex.toNat + 1) = s.history :=
    List.take_of_length_le (by omega)
  simp [hg, hkeep]

/-- C1 witness: with history `["x"]` and the cursor at the end on `"x"`,
`visit("x")` is a full no-op. -/
theorem C1_witness :
    (NavigationHistory.resetNav "x").addPath "x" = NavigationHistory.resetNav "x" :=
  C1_visit_truncates_then_appends.2.1 _ "x" (by decide) (by decide)

/-! ### Claim C2 -/

/-- C2: after `reset` and `visit(p1), ..., visit(pn)` with no consecutive
duplicates, `back()` called `k` times then `forward()` called `k` times
(`k ≤ n-1`) restores the state exactly — the current path is again `pn` —
and `back`/`forward` never mutate the entries list. -/
theorem C2_back_forward_restore (ps : List String) (k : Nat) (hne : ps ≠ [])
    (_hdist : ps.Chain' (· ≠ ·)) (_hk : k ≤ ps.length - 1) :
    ((((NavigationHistory.resetNav "").visits ps).backN k).forwardN k
        = (NavigationHistory.resetNav "").visits ps ∧
      ((((NavigationHistory.resetNav "").visits ps).backN k).forwardN k).getCurrentPath
        = ps.getLast hne) ∧
    (∀ t : NavigationHistory, t.back.history = t.history ∧
      t.forward.history = t.history) := by
  obtain ⟨hend, hnil⟩ :=
    NavigationHistory.visits_atEnd (NavigationHistory.resetNav "") ps
      (by decide) (by decide)
  have hrt := NavigationHistory.back_forward_roundtrip _ k hend hnil
  refine ⟨⟨hrt, ?_⟩,
    fun t => ⟨NavigationHistory.back_history t, NavigationHistory.forward_history t⟩⟩
  rw [hrt]
  exact NavigationHistory.getCurrentPath_visits _ ps hne

/-- C2 witness: visiting a, b, c then going back twice and forward twice
restores the state. -/
theorem C2_witness :
    (((NavigationHistory.resetNav "").visits ["a", "b", "c"]).backN 2).forwardN 2
      = (NavigationHistory.resetNav "").visits ["a", "b", "c"] :=
  (C2_back_forward_restore ["a", "b", "c"] 2 (by decide) (by simp) (by decide)).1.1

/-! ### Claims C3 and C4 -/

/-- The filter callback holds exactly when the normalised entry path is a
direct child of the normalised folder in the decomposition sense. -/
theorem shouldInclude_iff (pre : String) (e : FileItem) :
    shouldInclude pre e = true ↔
      (let p := stripPathEnds e.name
       if pre = "" then ¬ p.data.contains '/'
       else ∃ rest : List Char,
         p.data = pre.data ++ '/' :: rest ∧ ¬ rest.contains '/') := by
  unfold shouldInclude
  by_cases hpre : pre = ""
  · simp [hpre, jsContains]
  · simp only [hpre, if_false, if_neg hpre]
    cases hsw : jsStartsWith (stripPathEnds e.name) (pre ++ "/") with
    | false =>
      simp only [hsw, Bool.false_and, if_false]
      refine iff_of_false (by simp) ?_
      rintro ⟨rest, hr, -⟩
      have hcontra : jsStartsWith (stripPathEnds e.name) (pre ++ "/") = true := by
        unfold jsStartsWith
        rw [List.isPrefixOf_iff_prefix]
        exact ⟨rest, by rw [String.data_append, hr]; simp⟩
      rw [hsw] at hcontra
      exact Bool.noConfusion hcontra
    | true =>
      obtain ⟨t, ht⟩ := List.isPrefixOf_iff_prefix.mp
        (by unfold jsStartsWith at hsw; exact hsw)
      have hdata : (stripPathEnds e.name).data = pre.data ++ '/' :: t := by
        rw [← ht, String.data_append]
        simp
      have hdrop : jsDrop (stripPathEnds e.name) (jsLength pre + 1) = ⟨t⟩ := by
        show (⟨(stripPathEnds e.name).data.drop (pre.data.length + 1)⟩ : String) = ⟨t⟩
        rw [hdata]
        have h1 : pre.data ++ '/' :: t = (pre.data ++ ['/']) ++ t := by simp
        have h2 : (pre.data ++ ['/']).length = pre.data.length + 1 := by simp
        rw [h1, ← h2, List.drop_left]
      simp only [hsw, Bool.true_and, if_true]
      rw [hdrop]
      constructor
      · intro h
        refine ⟨t, hdata, ?_⟩
        have htc : t.contains '/' = false := by
          cases hc : jsContains ⟨t⟩ '/'
          · exact hc
          · rw [hc] at h
            exact Bool.noConfusion h
        simpa using htc
      · rintro ⟨rest, hr, hnc⟩
        have htr : t = rest := by
          have h0 := hdata.symm.trans hr
          simpa using h0
        subst htr
        have htc : jsContains ⟨t⟩ '/' = false := by
          have : t.contains '/' = false := by simpa using hnc
          exact this
        simp [htc]

/-- C3 fails as stated: on the given entry list the children of the root are
exactly `a.txt`; no item for the top-level directory `dir` is returned,
because the list contains no entry for it. -/
theorem C3_counterexample :
    (filterFilesByFolder exampleEntries "").map FileItem.name = ["a.txt"] ∧
      "dir" ∉ (filterFilesByFolder exampleEntries "").map
        (fun e => stripPathEnds e.name) := by
  decide

/-- C3 (amended): on the example list the children of the root are exactly
`a.txt` (the top-level directory `dir` appears only when the list carries a
marker entry `dir/` for it), the children of `dir/` are exactly
`dir/b.txt` — excluding `dir/sub/c.txt` — and in general an entry whose
normalised path equals a non-empty normalised folder (the folder's own
directory marker) is never among that folder's children. -/
theorem C3_children_example :
    ((filterFilesByFolder exampleEntries "").map FileItem.name = ["a.txt"] ∧
      (filterFilesByFolder (⟨"dir/", true, 0, "", ""⟩ :: exampleEntries) "").map FileItem.name
        = ["dir/", "a.txt"] ∧
      (filterFilesByFolder exampleEntries "dir/").map FileItem.name = ["dir/b.txt"]) ∧
    (∀ (files : List FileItem) (folder : String) (e : FileItem),
      stripPathEnds folder ≠ "" → e ∈ filterFilesByFolder files folder →
      stripPathEnds e.name ≠ stripPathEnds folder) := by
  refine ⟨⟨by decide, by decide, by decide⟩, ?_⟩
  intro files folder e hpre hmem heq
  unfold filterFilesByFolder at hmem
  by_cases hlen : files.length = 0
  · rw [if_pos hlen] at hmem
    cases hmem
  · rw [if_neg hlen] at hmem
    have hp := (List.mem_filter.mp hmem).2
    rw [shouldInclude_iff] at hp
    simp only [hpre, if_false, if_neg hpre] at hp
    obtain ⟨rest, hr, -⟩ := hp
    rw [heq] at hr
    have := congrArg List.length hr
    simp at this

/-- C3 witness: the folder's own marker entry `dir/` is not among the
children of `dir/`. -/
theorem C3_witness :
    (⟨"dir/", true, 0, "", ""⟩ : FileItem) ∉ filterFilesByFolder markerEntries "dir/" :=
  fun h =>
    C3_children_example.2 markerEntries "dir/" ⟨"dir/", true, 0, "", ""⟩
      (by decide) h (by decide)

/-- C4 fails as stated: a folder written with a single leading slash is not
normalised the way the claim says.  The code strips only a leading double
slash or one trailing slash (first regex match), so for `"/dir/"` the
computed prefix is `"/dir"` and no entry matches, while the claim's
normalisation (`dir`) would return the entry `dir/b.txt`. -/
theorem C4_counterexample :
    claimedChildren [⟨"dir/b.txt", false, 0, "", ""⟩] "/dir/"
        = [⟨"dir/b.txt", false, 0, "", ""⟩] ∧
      filterFilesByFolder [⟨"dir/b.txt", false, 0, "", ""⟩] "/dir/" = [] := by
  decide

/-- C4 (amended): `children(entries, folder)` normalises `folder` by
removing a leading double slash or a single trailing slash (first match
only — a single leading slash is kept), normalises every entry path by the
same rule, and returns, in input order (a sublist of the input), exactly the
entries whose normalised path has no `/` when the prefix is empty, or
decomposes as prefix, `/`, and a slash-free remainder when the prefix is
non-empty. -/
theorem C4_filter_characterisation (files : List FileItem) (folder : String) :
    (filterFilesByFolder files folder).Sublist files ∧
      ∀ e : FileItem,
        e ∈ filterFilesByFolder files folder ↔ e ∈ files ∧ specIsDirectChild folder e := by
  constructor
  · unfold filterFilesByFolder
    split
    · exact List.nil_sublist _
    · exact List.filter_sublist _
  · intro e
    unfold filterFilesByFolder
    by_cases hlen : files.length = 0
    · rw [if_pos hlen]
      have : files = [] := List.length_eq_zero.mp hlen
      subst this
      simp
    · rw [if_neg hlen, List.mem_filter]
      rw [shouldInclude_iff]
      unfold specIsDirectChild
      exact Iff.rfl

/-- C4 witness: the characterisation applied at a concrete input — the
children of `dir/` form a sublist of the marker example. -/
theorem C4_witness :
    (filterFilesByFolder markerEntries "dir/").Sublist markerEntries :=
  (C4_filter_characterisation markerEntries "dir/").1

/-! ### Claims C5, C6, C7 -/

/-- Every name collected by the shift-click loop names a rendered entry. -/
theorem rangeNames_subset (r : List FileItem) (a b : Nat) :
    ExplorerState.rangeNames r a b ⊆ (r.map FileItem.name).toFinset := by
  intro x hx
  simp only [ExplorerState.rangeNames, List.mem_toFinset, List.mem_filterMap] at hx
  obtain ⟨i, -, hi⟩ := hx
  obtain ⟨f, hf, rfl⟩ := Option.map_eq_some'.mp hi
  simp only [List.mem_toFinset, List.mem_map]
  exact ⟨f, List.get?_mem hf, rfl⟩

/-- Every explorer interaction preserves the selection invariant. -/
theorem step_preserves_selectionValid (s : ExplorerState) (ev : ExplorerEvent)
    (h : selectionValid s) : selectionValid (s.step ev) := by
  have hname : ∀ {index : Nat} {file : FileItem},
      s.currentRenderedFiles.get? index = some file →
      file.name ∈ (s.currentRenderedFiles.map FileItem.name).toFinset := by
    intro index file hf
    simp only [List.mem_toFinset, List.mem_map]
    exact ⟨file, List.get?_mem hf, rfl⟩
  cases ev with
  | update files =>
    simp [ExplorerState.step, ExplorerState.updateFileList, selectionValid]
  | click index ctrl shift =>
    simp only [ExplorerState.step, ExplorerState.handleFileListClick]
    split
    · exact h
    · cases hg : s.currentRenderedFiles.get? index with
      | none => exact h
      | some file =>
        dsimp only
        by_cases hshift : shift = true ∧ s.lastClickedIndex ≠ -1
        · rw [if_pos hshift]
          unfold selectionValid
          dsimp only
          refine Finset.union_subset ?_ (rangeNames_subset _ _ _)
          by_cases hctrl : ctrl = true
          · rw [if_pos hctrl]
            exact h
          · rw [if_neg hctrl]
            exact Finset.empty_subset _
        · rw [if_neg hshift]
          by_cases hctrl : ctrl = true
          · rw [if_pos hctrl]
            unfold selectionValid
            dsimp only
            by_cases hmem : file.name ∈ s.selectedFiles
            · rw [if_pos hmem]
              exact (Finset.erase_subset _ _).trans h
            · rw [if_neg hmem]
              exact Finset.insert_subset_iff.mpr ⟨hname hg, h⟩
          · rw [if_neg hctrl]
            unfold selectionValid
            dsimp only
            exact Finset.singleton_subset_iff.mpr (hname hg)
  | emptyClick =>
    simp only [ExplorerState.step, ExplorerState.handleEmptyClick]
    split
    · exact h
    · simp [selectionValid]
  | dblclick index =>
    simp only [ExplorerState.step, ExplorerState.handleFileListDblClick]
    split
    · exact h
    · cases hg : s.currentRenderedFiles.get? index with
      | none => exact h
      | some file => simp [selectionValid]
  | contextmenu index =>
    simp only [ExplorerState.step, ExplorerState.handleFileListContextMenu]
    split
    · exact h
    · cases hg : s.currentRenderedFiles.get? index with
      | none => exact h
      | some file =>
        dsimp only
        by_cases hmem : file.name ∈ s.selectedFiles
        · rw [if_pos hmem]
          exact h
        · rw [if_neg hmem]
          unfold selectionValid
          dsimp only
          exact Finset.singleton_subset_iff.mpr (hname hg)
  | load b => exact h

/-- C5: range selection is anchor-stable — a simple click at index 1, a
shift-click at index 4, then a shift-click at index 2 leave exactly the
names of the rendered items at indices 1 and 2 selected with the anchor
still at 1; and a shift-click on a rendered item never changes the anchor
when one is set. -/
theorem C5_range_selection_anchor_stable :
    (∀ (s : ExplorerState) (f1 f2 f4 : FileItem),
      s.isLoading = false →
      s.currentRenderedFiles.get? 1 = some f1 →
      s.currentRenderedFiles.get? 2 = some f2 →
      s.currentRenderedFiles.get? 4 = some f4 →
      (((s.handleFileListClick 1 false false).handleFileListClick 4 false
            true).handleFileListClick 2 false true).selectedFiles
          = {f1.name, f2.name} ∧
        (((s.handleFileListClick 1 false false).handleFileListClick 4 false
            true).handleFileListClick 2 false true).lastClickedIndex = 1) ∧
    (∀ (t : ExplorerState) (index : Nat) (ctrl : Bool) (f : FileItem),
      t.isLoading = false → t.lastClickedIndex ≠ -1 →
      t.currentRenderedFiles.get? index = some f →
      (t.handleFileListClick index ctrl true).lastClickedIndex
        = t.lastClickedIndex) := by
  constructor
  · intro s f1 f2 f4 hload h1 h2 h4
    have h1g : s.currentRenderedFiles[1]? = some f1 := by simpa using h1
    have h2g : s.currentRenderedFiles[2]? = some f2 := by simpa using h2
    have h4g : s.currentRenderedFiles[4]? = some f4 := by simpa using h4
    have e1 : s.handleFileListClick 1 false false
        = { s with selectedFiles := {f1.name}, lastClickedIndex := 1 } := by
      simp [ExplorerState.handleFileListClick, hload, h1g]
    have e2 : ({ s with selectedFiles := {f1.name}, lastClickedIndex := 1 }
          : ExplorerState).handleFileListClick 4 false true
        = { s with
            selectedFiles := ExplorerState.rangeNames s.currentRenderedFiles 1 4,
            lastClickedIndex := 1 } := by
      simp [ExplorerState.handleFileListClick, hload, h4g]
    have e3 : ({ s with
          selectedFiles := ExplorerState.rangeNames s.currentRenderedFiles 1 4,
          lastClickedIndex := 1 } : ExplorerState).handleFileListClick 2 false true
        = { s with
            selectedFiles := ExplorerState.rangeNames s.currentRenderedFiles 1 2,
            lastClickedIndex := 1 } := by
      simp [ExplorerState.handleFileListClick, hload, h2g]
    have hr : ExplorerState.rangeNames s.currentRenderedFiles 1 2
        = {f1.name, f2.name} := by
      have : List.range' 1 (2 + 1 - 1) = [1, 2] := rfl
      simp [ExplorerState.rangeNames, this, h1g, h2g]
    rw [e1, e2, e3, hr]
    exact ⟨rfl, rfl⟩
  · intro t index ctrl f hload hanchor hf
    have hfg : t.currentRenderedFiles[index]? = some f := by simpa using hf
    simp [ExplorerState.handleFileListClick, hload, hfg, hanchor]

/-- C5 witness: the scenario on a concrete five-item list. -/
theorem C5_witness :
    ((((⟨false, ∅, -1,
        [⟨"f0", false, 0, "", ""⟩, ⟨"f1", false, 0, "", ""⟩,
         ⟨"f2", false, 0, "", ""⟩, ⟨"f3", false, 0, "", ""⟩,
         ⟨"f4", false, 0, "", ""⟩]⟩ : ExplorerState).handleFileListClick 1 false
          false).handleFileListClick 4 false true).handleFileListClick 2 false
        true).selectedFiles = {"f1", "f2"} := by
  have h := C5_range_selection_anchor_stable.1
    (⟨false, ∅, -1,
      [⟨"f0", false, 0, "", ""⟩, ⟨"f1", false, 0, "", ""⟩,
       ⟨"f2", false, 0, "", ""⟩, ⟨"f3", false, 0, "", ""⟩,
       ⟨"f4", false, 0, "", ""⟩]⟩ : ExplorerState)
    ⟨"f1", false, 0, "", ""⟩ ⟨"f2", false, 0, "", ""⟩ ⟨"f4", false, 0, "", ""⟩
    rfl rfl rfl rfl
  exact h.1

/-- C6 fails as stated: with no anchor set (`lastClickedIndex = -1`), a
shift-click with the ctrl modifier (`preserveExisting = true`) on an
already-selected item removes it from the selection instead of adding it,
and the anchor index is changed to the clicked index instead of staying
unset. -/
theorem C6_counterexample :
    (((⟨false, {"a.txt"}, -1, [⟨"a.txt", false, 0, "", ""⟩]⟩ :
        ExplorerState).handleFileListClick 0 true true).selectedFiles = ∅ ∧
      ((⟨false, {"a.txt"}, -1, [⟨"a.txt", false, 0, "", ""⟩]⟩ :
        ExplorerState).handleFileListClick 0 true true).lastClickedIndex = 0) := by
  decide

/-- C6 (amended): a shift-click performed while `anchorIndex == -1` degrades
to the corresponding plain click: with `preserveExisting` false it replaces
the selection with the single clicked item, with `preserveExisting` true it
toggles the clicked item's membership; in both cases `anchorIndex` is set to
the clicked index. -/
theorem C6_shift_click_without_anchor (s : ExplorerState) (index : Nat)
    (file : FileItem) (hload : s.isLoading = false)
    (hanchor : s.lastClickedIndex = -1)
    (hf : s.currentRenderedFiles.get? index = some file) :
    ((s.handleFileListClick index false true).selectedFiles = {file.name} ∧
      (s.handleFileListClick index false true).lastClickedIndex = (index : Int)) ∧
    ((s.handleFileListClick index true true).selectedFiles
        = (if file.name ∈ s.selectedFiles then s.selectedFiles.erase file.name
           else insert file.name s.selectedFiles) ∧
      (s.handleFileListClick index true true).lastClickedIndex = (index : Int)) := by
  have hfg : s.currentRenderedFiles[index]? = some file := by simpa using hf
  constructor
  · constructor <;> simp [ExplorerState.handleFileListClick, hload, hfg, hanchor]
  · constructor <;> simp [ExplorerState.handleFileListClick, hload, hfg, hanchor]

/-- C6 witness: the amended behaviour on a concrete one-item list. -/
theorem C6_witness :
    ((⟨false, ∅, -1, [⟨"a.txt", false, 0, "", ""⟩]⟩ :
        ExplorerState).handleFileListClick 0 false true).selectedFiles
      = {"a.txt"} := by
  have h := C6_shift_click_without_anchor
    (⟨false, ∅, -1, [⟨"a.txt", false, 0, "", ""⟩]⟩ : ExplorerState) 0
    ⟨"a.txt", false, 0, "", ""⟩ rfl rfl rfl
  exact h.1.1

/-- C7: every run of `updateFileList` installs the new rendered list with an
empty selection and the anchor reset to `-1`, whatever was selected before;
consequently, along any sequence of explorer interactions from module load,
every selected path names an entry of the last rendered list. -/
theorem C7_reload_invalidates_selection :
    (∀ (s : ExplorerState) (files : List FileItem),
      (s.updateFileList files).selectedFiles = ∅ ∧
        (s.updateFileList files).lastClickedIndex = -1 ∧
        (s.updateFileList files).currentRenderedFiles = files) ∧
    (∀ events : List ExplorerEvent, selectionValid (ExplorerState.run events)) := by
  refine ⟨fun s files => ⟨rfl, rfl, rfl⟩, ?_⟩
  intro events
  have hinit : selectionValid ExplorerState.initial := by
    simp [selectionValid, ExplorerState.initial]
  suffices hall : ∀ (es : List ExplorerEvent) (t : ExplorerState),
      selectionValid t → selectionValid (es.foldl ExplorerState.step t) by
    exact hall events _ hinit
  intro es
  induction es with
  | nil => exact fun t ht => ht
  | cons e es ih =>
    exact fun t ht => ih _ (step_preserves_selectionValid t e ht)

/-! ### Claims C8 and C9 -/

/-- C8 fails as stated: with the gate Busy, a confirmed delete of a
non-empty selection still runs — the backend is invoked and the cached entry
list replaced — because `handleDelete` never consults the loading flag. -/
theorem C8_counterexample :
    ((⟨⟨[""], 0⟩, "a.zip", [⟨"x.txt", false, 1, "", ""⟩], true⟩ :
        AppState).isLoading = true ∧
      (⟨⟨[""], 0⟩, "a.zip", [⟨"x.txt", false, 1, "", ""⟩], true⟩ :
        AppState).handleDelete ["x.txt"] true (.ok []) ≠
        (⟨⟨[""], 0⟩, "a.zip", [⟨"x.txt", false, 1, "", ""⟩], true⟩ : AppState)) ∧
      ((⟨⟨[""], 0⟩, "a.zip", [⟨"x.txt", false, 1, "", ""⟩], true⟩ :
        AppState).handleDelete ["x.txt"] true (.ok [])).currentFiles = [] := by
  decide

/-- C8 (amended): while the gate is Busy every navigation action (back,
forward, up, folder click, double-click into a directory) and the refresh
action is a silent no-op leaving the whole state — cursor, history entries
and cached entry list — unchanged; in particular `goBack()` while Busy does
not change the cursor even when `canGoBack()` is true.  Command dispatch,
however, is not gated: a confirmed delete of a non-empty selection proceeds
regardless of the flag and installs the backend's new entry list. -/
theorem C8_busy_guard (s : AppState) (hbusy : s.isLoading = true) :
    (s.backClick = s ∧ s.forwardClick = s ∧ s.upClick = s ∧
      (∀ p : String, s.navigateToFolder p = s) ∧
      (∀ f : FileItem, s.dblClickNavigate f = s) ∧
      s.refreshStart = s) ∧
    (∀ (selected : List String) (files : List FileItem), selected ≠ [] →
      (s.handleDelete selected true (.ok files)).currentFiles = files ∧
        (s.handleDelete selected true (.ok files)).isLoading = false) := by
  constructor
  · refine ⟨?_, ?_, ?_, fun p => ?_, fun f => ?_, ?_⟩ <;>
      simp [AppState.backClick, AppState.forwardClick, AppState.upClick,
        AppState.navigateToFolder, AppState.dblClickNavigate,
        AppState.refreshStart, hbusy]
  · intro selected files hsel
    have hne : selected.isEmpty = false := by
      cases selected with
      | nil => exact absurd rfl hsel
      | cons a l => rfl
    constructor <;> simp [AppState.handleDelete, hne]

/-- C8 witness: a Busy state with history `["", "docs/"]` and cursor 1
(`canGoBack()` true) is left untouched by the Back click. -/
theorem C8_witness :
    (⟨⟨["", "docs/"], 1⟩, "a.zip", [], true⟩ : AppState).backClick
      = (⟨⟨["", "docs/"], 1⟩, "a.zip", [], true⟩ : AppState) :=
  (C8_busy_guard (⟨⟨["", "docs/"], 1⟩, "a.zip", [], true⟩ : AppState) rfl).1.1

/-- C9: `loadArchive` raises the gate before awaiting the backend and the
gate is Idle again after the operation settles, on success and on failure
alike; a failed archive open resets to the empty/home state (no archive
path, no cached entries), while a failed refresh leaves the previously
loaded entry list and the navigation history intact. -/
theorem C9_load_gate_and_failure (s : AppState) (archivePath : String)
    (files : List FileItem) (err : String) :
    (s.loadArchiveStart.isLoading = true) ∧
    ((s.loadArchiveStart.loadArchiveFinish archivePath (.ok files)).isLoading
        = false) ∧
    ((s.loadArchiveStart.loadArchiveFinish archivePath (.error err)).isLoading
          = false ∧
      (s.loadArchiveStart.loadArchiveFinish archivePath
          (.error err)).currentArchivePath = "" ∧
      (s.loadArchiveStart.loadArchiveFinish archivePath
          (.error err)).currentFiles = []) ∧
    ((s.refreshStart.refreshFinish (.error err)).isLoading = false ∧
      (s.refreshStart.refreshFinish (.error err)).currentFiles
          = s.currentFiles ∧
      (s.refreshStart.refreshFinish (.error err)).nav = s.nav) := by
  refine ⟨rfl, rfl, ⟨rfl, rfl, rfl⟩, ?_, ?_, ?_⟩ <;>
    simp [AppState.refreshStart, AppState.refreshFinish] <;> split <;> rfl

/-! ### Claim C10 -/

/-- C10: there is an entry list and a folder — one whose own
directory-marker entry is in the list — where the status-bar count of
`getFileStats` differs from the number of rows `filterFilesByFolder`
renders: the stats count the marker entry, the child filter excludes it. -/
theorem C10_stats_filter_mismatch :
    ∃ (files : List FileItem) (folder : String),
      (∃ e ∈ files, e.name = folder) ∧
        (getFileStats files folder).1 ≠ (filterFilesByFolder files folder).length :=
  ⟨markerEntries, "dir/", ⟨⟨"dir/", true, 0, "", ""⟩, by decide, rfl⟩, by decide⟩

end SoarZip
